import Mathlib

/-!
Shallow embedding of `src/binary/load_kernel.rs`, the kernel-loading core of the
bootloader.  Pure data is translated directly; machine integers are `Nat` (the
one place where u64 overflow matters, the `checked_add` in the relocator, is
embedded explicitly).  The external collaborators are modelled at the interface
the source uses them through:

* physical memory (identity-mapped during loading) is a byte store `Nat → Nat`;
* the page table is an association list of `(page, frame, flags)` triples, with
  page and frame numbers obtained by dividing byte addresses by 4096, and flags
  the u64 bitmask of `PageTableFlags` (PRESENT = bit 0, WRITABLE = bit 1,
  NO_EXECUTE = bit 63); `map_to` fails exactly on an already-present page and
  `unmap` fails exactly on an absent page;
* the frame allocator is a free list of frame numbers, `allocate_frame` popping
  its head and panicking (via `.unwrap()`) when it is empty;
* the parsed ELF view (the `xmas_elf` crate is outside this repository) is a
  structure holding the header fields and program headers the loader consumes;
  the raw reinterpretation of file bytes as an array of `Rela` entries
  (`core::slice::from_raw_parts`) is abstracted by the oracle field `relaAt`.

Rust `Err(&'static str)` returns are `LoadError.errMsg`; Rust panics
(`assert_eq!`, `.unwrap()`, `unimplemented!`, division by zero) are
`LoadError.panicked` with a short static tag standing for the panic message
(format interpolation in the source message is dropped).
-/

/-- One error type for both fallible returns and panics of the loader. -/
inductive LoadError where
  | errMsg (msg : String)
  | panicked (msg : String)
  deriving DecidableEq

/-- ELF program-header types consumed by the loader (`xmas_elf::program::Type`). -/
inductive SegType where
  | load
  | dynamic
  | tls
  | null
  | interp
  | note
  | shlib
  | phdr
  | gnuRelro
  | osSpecific
  | procSpecific
  deriving DecidableEq

/-- Dynamic-section entries as the loader reads them: the three tags it
collects, everything else is ignored (`_ => {}` in the source match). -/
inductive DynEntry where
  | rela (ptr : Nat)
  | relaSize (val : Nat)
  | relaEnt (val : Nat)
  | other
  deriving DecidableEq

/-- A `Rela<u64>` relocation entry as accessed by the source:
`get_offset`, `get_addend`, `get_symbol_table_index`, `get_type`. -/
structure Rela where
  r_offset : Nat
  r_addend : Nat
  symIdx : Nat
  relType : Nat
  deriving DecidableEq

/-- A parsed ELF64 program header with the fields the loader consumes; for a
`PT_DYNAMIC` header `dynData` is its `Dynamic64` entry slice (obtained by
`segment.get_data` in the source). -/
structure ProgramHeader where
  segType : SegType
  is_execute : Bool
  is_write : Bool
  offset : Nat
  virtual_addr : Nat
  file_size : Nat
  mem_size : Nat
  dynData : List DynEntry := []

/-- ELF header type (`header::Type` of `xmas_elf`). -/
inductive ElfType where
  | tNone
  | tRel
  | tExec
  | tDyn
  | tCore
  | tProc
  deriving DecidableEq

/-- The parsed ELF view of the kernel image.  `relaAt off n` abstracts reading
`n` consecutive `Rela<u64>` records starting at file offset `off` out of the
image bytes. -/
structure ElfFile where
  entry : Nat
  elfType : ElfType
  progHeaders : List ProgramHeader
  relaAt : Nat → Nat → List Rela

/-- TLS initialization template returned to the caller. -/
structure TlsTemplate where
  start_addr : Nat
  file_size : Nat
  mem_size : Nat
  deriving DecidableEq

/-- State of the two mutable collaborators plus identity-mapped physical
memory: byte store, page table (page number, frame number, flags) and the
frame-allocator free list. -/
structure BootState where
  mem : Nat → Nat
  pageTable : List (Nat × Nat × Nat)
  frames : List Nat

/-- First mapping of a page number in the table, as the page-table collaborator
would report it. -/
def lookupPage (pt : List (Nat × Nat × Nat)) (page : Nat) : Option (Nat × Nat) :=
  match pt with
  | [] => none
  | (q, f, fl) :: rest => if q = page then some (f, fl) else lookupPage rest page

/-- `Mapper::map_to`: fails exactly when the page is already mapped. -/
def mapTo (pt : List (Nat × Nat × Nat)) (page frame flags : Nat) :
    Option (List (Nat × Nat × Nat)) :=
  match lookupPage pt page with
  | some _ => none
  | none => some ((page, frame, flags) :: pt)

/-- `Mapper::unmap`: removes the first mapping of `page`, returning the frame
and flags it was mapped to; fails when the page is not mapped. -/
def unmapPage (pt : List (Nat × Nat × Nat)) (page : Nat) :
    Option ((Nat × Nat) × List (Nat × Nat × Nat)) :=
  match pt with
  | [] => none
  | (q, f, fl) :: rest =>
    if q = page then some ((f, fl), rest)
    else
      match unmapPage rest page with
      | none => none
      | some (x, rest') => some (x, (q, f, fl) :: rest')

/-- `align_up(addr, 4096)` from the `x86_64` crate. -/
def alignUp (addr : Nat) : Nat := (addr + 4095) / 4096 * 4096

/-- The pages of `Page::range_inclusive(s, e)` as page numbers (empty when
`e < s`). -/
def pageRangeInclusive (s e : Nat) : List Nat :=
  (List.range (e + 1 - s)).map (fun i => s + i)

/-- Writing the constant `ZERO_ARRAY` (4096 zero bytes) over the frame that
starts at byte address `base`, through the identity mapping. -/
def zeroFrame (mem : Nat → Nat) (base : Nat) : Nat → Nat :=
  fun a => if base ≤ a ∧ a < base + 4096 then 0 else mem a

/-- The byte-copy loop of `handle_bss_section`: for `offset in 0..n`, read
`src + offset` and write it to `dst + offset` (each read observes the writes
already performed). -/
def copyBytes (mem : Nat → Nat) (src dst : Nat) : Nat → (Nat → Nat)
  | 0 => mem
  | Nat.succ n =>
    fun a =>
      if a = dst + n then copyBytes mem src dst n (src + n)
      else copyBytes mem src dst n a

/-- Little-endian store of a 64-bit value at byte address `addr`
(the `dest_ptr.write(value)` of the relocator). -/
def writeU64 (mem : Nat → Nat) (addr val : Nat) : Nat → Nat :=
  fun a => if addr ≤ a ∧ a < addr + 8 then val / 256 ^ (a - addr) % 256 else mem a

/-- Apply a trace of 64-bit stores in order. -/
def applyWrites : List (Nat × Nat) → (Nat → Nat) → (Nat → Nat)
  | [], mem => mem
  | (a, v) :: rest, mem => applyWrites rest (writeU64 mem a v)

/-- The segment flags computed at the top of `handle_load_segment`: always
`PRESENT`; `NO_EXECUTE` unless the ELF flags mark the segment executable;
`WRITABLE` when they mark it writable. -/
def segmentFlags (seg : ProgramHeader) : Nat :=
  let f := 1
  let f := if !seg.is_execute then f ||| 2 ^ 63 else f
  let f := if seg.is_write then f ||| 2 else f
  f

/-- `find_offset`: locate the file offset corresponding to the virtual address
`virt_offset`, scanning the program headers in order. -/
def find_offset (hdrs : List ProgramHeader) (virt_offset : Nat) : Option Nat :=
  match hdrs with
  | [] => none
  | p :: rest =>
    if p.segType = SegType.load then
      if p.virtual_addr ≤ virt_offset then
        if virt_offset - p.virtual_addr < p.file_size then
          some (p.offset + (virt_offset - p.virtual_addr))
        else find_offset rest virt_offset
      else find_offset rest virt_offset
    else find_offset rest virt_offset

/-- The predicate of the specification sentence for the Offset Finder.
Modelled from the spec: the first header with
`virtual_addr ≤ v < virtual_addr + file_size`. -/
def findOffsetSpecPred (v : Nat) (p : ProgramHeader) : Bool :=
  p.segType == SegType.load && decide (p.virtual_addr ≤ v) &&
    decide (v < p.virtual_addr + p.file_size)

/-- Offset Finder as the specification words it, for comparison with
`find_offset`. -/
def findOffsetSpec (hdrs : List ProgramHeader) (v : Nat) : Option Nat :=
  (hdrs.find? (findOffsetSpecPred v)).map (fun p => p.offset + (v - p.virtual_addr))

/-- Body of the relocation loop of `handle_dynamic_segment` for one `Rela`
entry: assert a zero symbol-table index, require type 8 (`R_X86_64_RELATIVE`),
translate `r_offset` through `find_offset`, and compute the value with
`checked_add` (`None` is unwrapped, a panic).  On success it yields the 64-bit
store `(kernel_offset + offset_in_file, value)` the source performs. -/
def processRela (ko vao : Nat) (hdrs : List ProgramHeader) (r : Rela) :
    Except LoadError (Nat × Nat) :=
  if r.symIdx ≠ 0 then
    .error (.panicked "relocations using the symbol table are not supported")
  else if r.relType = 8 then
    match find_offset hdrs r.r_offset with
    | none => .error (.errMsg "Destination of relocation is not mapped in physical memory")
    | some offset_in_file =>
      if vao + r.r_addend < 2 ^ 64 then .ok (ko + offset_in_file, vao + r.r_addend)
      else .error (.panicked "attempt to add with overflow")
  else .error (.panicked "relocation type not supported")

/-- Outcome of processing one dynamic segment: the 64-bit stores performed
(in order) and, when the loop aborted, the error it aborted with. -/
structure DynOutcome where
  writes : List (Nat × Nat)
  error : Option LoadError
  deriving DecidableEq

/-- The relocation loop over the `Rela` table. -/
def processRelas (ko vao : Nat) (hdrs : List ProgramHeader) : List Rela → DynOutcome
  | [] => ⟨[], none⟩
  | r :: rest =>
    match processRela ko vao hdrs r with
    | .error e => ⟨[], some e⟩
    | .ok w =>
      let o := processRelas ko vao hdrs rest
      ⟨w :: o.writes, o.error⟩

/-- The tag-collection loop of `handle_dynamic_segment`: at most one each of
`Rela`, `RelaSize` and `RelaEnt`; a second of any tag is a hard error. -/
def collectRela (entries : List DynEntry) (r s e : Option Nat) :
    Except LoadError (Option Nat × Option Nat × Option Nat) :=
  match entries with
  | [] => .ok (r, s, e)
  | d :: rest =>
    match d with
    | .rela p =>
      if r.isSome then .error (.errMsg "Dynamic section contains more than one Rela entry")
      else collectRela rest (some p) s e
    | .relaSize v =>
      if s.isSome then .error (.errMsg "Dynamic section contains more than one RelaSize entry")
      else collectRela rest r (some v) e
    | .relaEnt v =>
      if e.isSome then .error (.errMsg "Dynamic section contains more than one RelaEnt entry")
      else collectRela rest r s (some v)
    | .other => collectRela rest r s e

/-- `Inner::handle_dynamic_segment` on the `Dynamic64` entries of one
`PT_DYNAMIC` segment.  Rust u64 division panics when the divisor is zero, so
`total_size / entry_size` is embedded with that semantics. -/
def handle_dynamic_segment (ko vao : Nat) (elf : ElfFile) (entries : List DynEntry) :
    DynOutcome :=
  match collectRela entries none none none with
  | .error e => ⟨[], some e⟩
  | .ok (relaOpt, sizeOpt, entOpt) =>
    match relaOpt with
    | none =>
      if sizeOpt.isSome then ⟨[], some (.panicked "assertion failed: rela_size is not None")⟩
      else if entOpt.isSome then ⟨[], some (.panicked "assertion failed: rela_ent is not None")⟩
      else ⟨[], none⟩
    | some offset =>
      match sizeOpt with
      | none => ⟨[], some (.errMsg "RelaSize entry is missing")⟩
      | some total_size =>
        match entOpt with
        | none => ⟨[], some (.errMsg "RelaEnt entry is missing")⟩
        | some entry_size =>
          if entry_size = 0 then ⟨[], some (.panicked "attempt to divide by zero")⟩
          else processRelas ko vao elf.progHeaders (elf.relaAt offset (total_size / entry_size))

/-- The split-tail block of `handle_bss_section`, executed when `zero_start`
is not page-aligned: allocate a fresh frame, zero it, copy the
`data_bytes_before_zero` data bytes from the original tail frame, unmap the
tail page and remap it to the new frame with the segment flags. -/
def splitTailPage (ko vao : Nat) (seg : ProgramHeader) (segment_flags : Nat)
    (s : BootState) : Except LoadError BootState :=
  let phys_start := ko + seg.offset
  let virt_start := seg.virtual_addr + vao
  let zero_start := virt_start + seg.file_size
  let data_bytes_before_zero := zero_start % 4096
  let orig_frame := (phys_start + seg.file_size - 1) / 4096
  match s.frames with
  | [] => .error (.panicked "frame allocator returned None")
  | new_frame :: remaining =>
    let mem1 := zeroFrame s.mem (new_frame * 4096)
    let mem2 := copyBytes mem1 (orig_frame * 4096) (new_frame * 4096) data_bytes_before_zero
    let last_page := (virt_start + seg.file_size - 1) / 4096
    match unmapPage s.pageTable last_page with
    | none => .error (.errMsg "Failed to unmap last segment page because of bss memory")
    | some (_, pt1) =>
      match mapTo pt1 last_page new_frame segment_flags with
      | none => .error (.errMsg "Failed to remap last segment page because of bss memory")
      | some pt2 => .ok { mem := mem2, pageTable := pt2, frames := remaining }

/-- The trailing loop of `handle_bss_section`: for each page of the inclusive
range, allocate a fresh frame, zero it, and map the page to it. -/
def mapBssPages (segment_flags : Nat) : List Nat → BootState → Except LoadError BootState
  | [], s => .ok s
  | page :: rest, s =>
    match s.frames with
    | [] => .error (.panicked "frame allocator returned None")
    | frame :: remaining =>
      let mem1 := zeroFrame s.mem (frame * 4096)
      match mapTo s.pageTable page frame segment_flags with
      | none => .error (.errMsg "Failed to map new frame for bss memory")
      | some pt1 => mapBssPages segment_flags rest { mem := mem1, pageTable := pt1, frames := remaining }

/-- `Inner::handle_bss_section`.  Note that the source computes the end of the
trailing page range as `Page::containing_address(zero_end)` where
`zero_end = virt_start + mem_size`, without subtracting one. -/
def handle_bss_section (ko vao : Nat) (seg : ProgramHeader) (segment_flags : Nat)
    (s : BootState) : Except LoadError BootState :=
  let virt_start := seg.virtual_addr + vao
  let zero_start := virt_start + seg.file_size
  let zero_end := virt_start + seg.mem_size
  let data_bytes_before_zero := zero_start % 4096
  match (if data_bytes_before_zero ≠ 0 then splitTailPage ko vao seg segment_flags s else .ok s :
      Except LoadError BootState) with
  | .error e => .error e
  | .ok s1 =>
    mapBssPages segment_flags (pageRangeInclusive (alignUp zero_start / 4096) (zero_end / 4096)) s1

/-- The frame-mapping loop of `handle_load_segment`, iterated as a count so
that page `start_page + i` is mapped to frame `start_frame + i`. -/
def mapFrameRange (start_page start_frame segment_flags : Nat) :
    Nat → List (Nat × Nat × Nat) → Option (List (Nat × Nat × Nat))
  | 0, pt => some pt
  | Nat.succ n, pt =>
    match mapTo pt start_page start_frame segment_flags with
    | none => none
    | some pt1 => mapFrameRange (start_page + 1) (start_frame + 1) segment_flags n pt1

/-- `Inner::handle_load_segment`. -/
def handle_load_segment (ko vao : Nat) (seg : ProgramHeader) (s : BootState) :
    Except LoadError BootState :=
  let phys_start := ko + seg.offset
  let start_frame := phys_start / 4096
  let end_frame := (phys_start + seg.file_size - 1) / 4096
  let start_page := (seg.virtual_addr + vao) / 4096
  match mapFrameRange start_page start_frame (segmentFlags seg) (end_frame + 1 - start_frame)
      s.pageTable with
  | none => .error (.errMsg "map_to failed")
  | some pt1 =>
    let s1 : BootState := { mem := s.mem, pageTable := pt1, frames := s.frames }
    if seg.mem_size > seg.file_size then handle_bss_section ko vao seg (segmentFlags seg) s1
    else .ok s1

/-- `Inner::handle_tls_segment` (it always succeeds in the source). -/
def handle_tls_segment (vao : Nat) (seg : ProgramHeader) : TlsTemplate :=
  { start_addr := seg.virtual_addr + vao
    mem_size := seg.mem_size
    file_size := seg.file_size }

/-- The first loop of `load_segments` that matters to state: apply relocations
of every `PT_DYNAMIC` segment to physical memory.  (The preceding per-header
`program::sanity_check` calls live in the external `xmas_elf` crate and are
modelled as passing, the headers being already-parsed data.) -/
def dynamicLoop (ko vao : Nat) (elf : ElfFile) :
    List ProgramHeader → (Nat → Nat) → Except LoadError (Nat → Nat)
  | [], mem => .ok mem
  | h :: rest, mem =>
    match h.segType with
    | SegType.dynamic =>
      let o := handle_dynamic_segment ko vao elf h.dynData
      match o.error with
      | some e => .error e
      | none => dynamicLoop ko vao elf rest (applyWrites o.writes mem)
    | _ => dynamicLoop ko vao elf rest mem

/-- The segment-loading loop of `load_segments`: `PT_LOAD` segments are mapped,
the first `PT_TLS` is recorded, a second one is a hard error, every other
header type is ignored. -/
def loadLoop (ko vao : Nat) :
    List ProgramHeader → Option TlsTemplate → BootState →
      Except LoadError (Option TlsTemplate × BootState)
  | [], tls, s => .ok (tls, s)
  | h :: rest, tls, s =>
    match h.segType with
    | SegType.load =>
      match handle_load_segment ko vao h s with
      | .error e => .error e
      | .ok s1 => loadLoop ko vao rest tls s1
    | SegType.tls =>
      match tls with
      | none => loadLoop ko vao rest (some (handle_tls_segment vao h)) s
      | some _ => .error (.errMsg "multiple TLS segments not supported")
    | _ => loadLoop ko vao rest tls s

/-- `Loader::load_segments`. -/
def load_segments (ko vao : Nat) (elf : ElfFile) (s : BootState) :
    Except LoadError (Option TlsTemplate × BootState) :=
  match dynamicLoop ko vao elf elf.progHeaders s.mem with
  | .error e => .error e
  | .ok mem1 => loadLoop ko vao elf.progHeaders none { mem := mem1, pageTable := s.pageTable, frames := s.frames }

/-- `Loader::new` up to the choice of `virtual_address_offset`: the alignment
check on the image base, then the match on the ELF type (`unimplemented!` for
every type other than Executable and SharedObject).  Parsing and the header
sanity check are performed by the external `xmas_elf` crate. -/
def loaderNew (ko : Nat) (elf : ElfFile) : Except LoadError Nat :=
  if ko % 4096 ≠ 0 then .error (.errMsg "Loaded kernel ELF file is not sufficiently aligned")
  else
    match elf.elfType with
    | ElfType.tExec => .ok 0
    | ElfType.tDyn => .ok 0x400000
    | _ => .error (.panicked "not implemented")

/-- `load_kernel`: build the loader, load the segments, return the entry point
`elf.header.entry + virtual_address_offset` together with the TLS template.
(The level-4 usage summary is computed in `level_4_entries.rs`, a file outside
the sources being verified, and is not modelled.) -/
def load_kernel (elf : ElfFile) (ko : Nat) (s : BootState) :
    Except LoadError (Nat × Option TlsTemplate × BootState) :=
  match loaderNew ko elf with
  | .error e => .error e
  | .ok vao =>
    match load_segments ko vao elf s with
    | .error e => .error e
    | .ok (tls, s1) => .ok (elf.entry + vao, tls, s1)

/-- Number of `DT_RELA` entries in a dynamic segment. -/
def countRela (entries : List DynEntry) : Nat :=
  entries.countP (fun d => match d with | .rela _ => true | _ => false)

/-- Number of `DT_RELASZ` entries in a dynamic segment. -/
def countRelaSize (entries : List DynEntry) : Nat :=
  entries.countP (fun d => match d with | .relaSize _ => true | _ => false)

/-- Number of `DT_RELAENT` entries in a dynamic segment. -/
def countRelaEnt (entries : List DynEntry) : Nat :=
  entries.countP (fun d => match d with | .relaEnt _ => true | _ => false)

/-- Whether a program header is a `PT_TLS` header. -/
def isTlsHeader (h : ProgramHeader) : Bool := h.segType == SegType.tls

/-- The `PT_TLS` headers of a header list, in order. -/
def tlsHeaders (hdrs : List ProgramHeader) : List ProgramHeader :=
  hdrs.filter isTlsHeader

/-- Extract the success value of an `Except`, with a default. -/
def okOr {ε α : Type} (x : Except ε α) (d : α) : α :=
  match x with
  | .ok a => a
  | .error _ => d

/-- The empty parsed ELF view, used for concrete evaluations of the dynamic
relocator where the surrounding file is irrelevant. -/
def emptyElf : ElfFile :=
  { entry := 0, elfType := ElfType.tExec, progHeaders := [], relaAt := fun _ _ => [] }

/-- Concrete `PT_LOAD` segment of scenario S3: `vaddr = 0x200000`,
`filesz = 0x1800`, `memsz = 0x3000`, flags R|W. -/
def segS3 : ProgramHeader :=
  { segType := SegType.load, is_execute := false, is_write := true, offset := 0,
    virtual_addr := 0x200000, file_size := 0x1800, mem_size := 0x3000 }

/-- State right after the Segment Mapper handled `segS3` with
`kernel_offset = 0x1000`: the tail page `0x201` is mapped to the tail frame
`2`, and the allocator holds three fresh frames. -/
def stateS3 : BootState :=
  { mem := fun _ => 0,
    pageTable := [(0x201, 2, segmentFlags segS3)],
    frames := [0x500, 0x501, 0x502] }

/-- Concrete segment for the split-tail witness: `vaddr = 0x200000`,
`filesz = 0x1010` (so 16 data bytes share the tail page), `memsz = 0x2000`. -/
def segSplit : ProgramHeader :=
  { segType := SegType.load, is_execute := false, is_write := true, offset := 0,
    virtual_addr := 0x200000, file_size := 0x1010, mem_size := 0x2000 }

/-- State before the split-tail block for `segSplit` with
`kernel_offset = 0x1000`: tail page `0x201` mapped to tail frame `2`,
allocator holding the fresh frames `9` and `7`, and a non-trivial byte store. -/
def stateSplit : BootState :=
  { mem := fun a => a % 251,
    pageTable := [(0x201, 2, 3)],
    frames := [9, 7] }

/-- Concrete `PT_LOAD` header for Offset-Finder/relocation witnesses:
`vaddr = 0`, `offset = 0x1000`, `filesz = 0x100`. -/
def hdrLoadW : ProgramHeader :=
  { segType := SegType.load, is_execute := true, is_write := false, offset := 0x1000,
    virtual_addr := 0, file_size := 0x100, mem_size := 0x100 }

/-- A relocation entry with a non-zero symbol-table index. -/
def relaSymBad : Rela := { r_offset := 0, r_addend := 0, symIdx := 3, relType := 8 }

/-- A relocation entry of unsupported type 7. -/
def relaTyBad : Rela := { r_offset := 0, r_addend := 0, symIdx := 0, relType := 7 }

/-- A well-formed `R_X86_64_RELATIVE` entry targeting `hdrLoadW`. -/
def relaGood : Rela := { r_offset := 0x10, r_addend := 0x50, symIdx := 0, relType := 8 }

/-- Concrete `PT_TLS` header of scenario S4. -/
def hdrTlsW : ProgramHeader :=
  { segType := SegType.tls, is_execute := false, is_write := false, offset := 0,
    virtual_addr := 0x10000, file_size := 0x20, mem_size := 0x40 }

/-- ELF view holding exactly one `PT_TLS` header. -/
def elfTlsW : ElfFile :=
  { entry := 0, elfType := ElfType.tExec, progHeaders := [hdrTlsW],
    relaAt := fun _ _ => [] }

/-- ELF view for the entry-point witness. -/
def elfEntryW : ElfFile :=
  { entry := 0x100000, elfType := ElfType.tExec, progHeaders := [],
    relaAt := fun _ _ => [] }

/-- Concrete segment for the flag witness: executable and writable. -/
def segFlagsW : ProgramHeader :=
  { segType := SegType.load, is_execute := true, is_write := true, offset := 0,
    virtual_addr := 0x100000, file_size := 0x1000, mem_size := 0x1000 }

/-- The empty boot state. -/
def bootState0 : BootState := { mem := fun _ => 0, pageTable := [], frames := [] }

/-- C9: `find_offset` returns `p.offset + (v - p.virtual_addr)` for the first
`PT_LOAD` header with `virtual_addr ≤ v < virtual_addr + file_size` (comparing
the ELF-native virtual address), and `none` when no `PT_LOAD` header
qualifies — it coincides with the specification predicate on every input. -/
theorem claim_c9_find_offset (hdrs : List ProgramHeader) (v : Nat) :
    find_offset hdrs v = findOffsetSpec hdrs v := by
  induction hdrs with
  | nil => rfl
  | cons p rest ih =>
    by_cases ht : p.segType = SegType.load
    · by_cases h1 : p.virtual_addr ≤ v
      · by_cases h2 : v - p.virtual_addr < p.file_size
        · have hb : findOffsetSpecPred v p = true := by
            simp [findOffsetSpecPred, ht, h1]
            omega
          simp [find_offset, findOffsetSpec, ht, h1, h2, List.find?_cons_of_pos _ hb]
        · have hb : findOffsetSpecPred v p = false := by
            simp [findOffsetSpecPred, ht, h1]
            omega
          calc find_offset (p :: rest) v = find_offset rest v := by
                simp [find_offset, ht, h1, h2]
            _ = findOffsetSpec rest v := ih
            _ = findOffsetSpec (p :: rest) v := by
                rw [findOffsetSpec, findOffsetSpec, List.find?_cons_of_neg _ (by simp [hb])]
      · have hb : findOffsetSpecPred v p = false := by
          simp [findOffsetSpecPred, h1]
        calc find_offset (p :: rest) v = find_offset rest v := by
              simp [find_offset, ht, h1]
          _ = findOffsetSpec rest v := ih
          _ = findOffsetSpec (p :: rest) v := by
              rw [findOffsetSpec, findOffsetSpec, List.find?_cons_of_neg _ (by simp [hb])]
    · have hb : findOffsetSpecPred v p = false := by
        simp [findOffsetSpecPred, ht]
      calc find_offset (p :: rest) v = find_offset rest v := by
            simp [find_offset, ht]
        _ = findOffsetSpec rest v := ih
        _ = findOffsetSpec (p :: rest) v := by
            rw [findOffsetSpec, findOffsetSpec, List.find?_cons_of_neg _ (by simp [hb])]

/-- C10: with `DT_RELA` present and a `DT_RELAENT` of value 0, the computation
of the entry count `total_size / entry_size` divides by zero — for every such
segment the dynamic handler aborts with the divide-by-zero panic, whatever the
table offset `p` and size `sz` are. -/
theorem claim_c10_div_by_zero (ko vao : Nat) (elf : ElfFile) (p sz : Nat) :
    handle_dynamic_segment ko vao elf
        [DynEntry.rela p, DynEntry.relaSize sz, DynEntry.relaEnt 0] =
      ⟨[], some (.panicked "attempt to divide by zero")⟩ := rfl

/-- C1 (code bug): on the S3 segment (`virt_start = 0x200000`,
`file_size = 0x1800`, `mem_size = 0x3000`) the trailing-page loop of
`handle_bss_section` maps page `0x203` — the page containing
`virt_start + mem_size` — although the inclusive end page claimed,
`containing_page(virt_start + mem_size - 1)`, is `0x202`. -/
theorem claim_c1_extra_end_page :
    lookupPage (okOr (handle_bss_section 0x1000 0 segS3 (segmentFlags segS3) stateS3)
        stateS3).pageTable 0x203 = some (0x502, segmentFlags segS3) ∧
    (0x200000 + 0x3000 - 1) / 4096 = 0x202 := ⟨rfl, rfl⟩

/-- C2: for an `R_X86_64_RELATIVE` entry with zero symbol index, the relocator
resolves `r_offset` through `find_offset`, targets
`kernel_offset + offset_in_file`, and stores `virtual_address_offset + addend`
computed with checked addition: overflow is a panic, and an untranslatable
`r_offset` is the hard error of the source. -/
theorem claim_c2_relative_reloc (ko vao : Nat) (hdrs : List ProgramHeader) (r : Rela)
    (hsym : r.symIdx = 0) (hty : r.relType = 8) :
    (∀ fo, find_offset hdrs r.r_offset = some fo → vao + r.r_addend < 2 ^ 64 →
        processRela ko vao hdrs r = .ok (ko + fo, vao + r.r_addend)) ∧
    (∀ fo, find_offset hdrs r.r_offset = some fo → 2 ^ 64 ≤ vao + r.r_addend →
        processRela ko vao hdrs r = .error (.panicked "attempt to add with overflow")) ∧
    (find_offset hdrs r.r_offset = none →
        processRela ko vao hdrs r =
          .error (.errMsg "Destination of relocation is not mapped in physical memory")) := by
  have h64 : (2 : Nat) ^ 64 = 18446744073709551616 := by norm_num
  refine ⟨?_, ?_, ?_⟩
  · intro fo hfo hlt
    rw [h64] at hlt
    simp [processRela, hsym, hty, hfo, hlt]
  · intro fo hfo hge
    rw [h64] at hge
    have hnl : ¬(vao + r.r_addend < 18446744073709551616) := by omega
    simp [processRela, hsym, hty, hfo, hnl]
  · intro hfo
    simp [processRela, hsym, hty, hfo]

/-- Witness for C2: the relative entry `r_offset = 0x10, addend = 0x50` against
a `PT_LOAD` at `vaddr = 0, offset = 0x1000` with `kernel_offset = 0x7000` and
`virtual_address_offset = 0x400000` yields the store of `0x400050` to
`0x8010`. -/
theorem claim_c2_relative_reloc_witness :
    processRela 0x7000 0x400000 [hdrLoadW] relaGood = .ok (0x8010, 0x400050) := by
  have h := claim_c2_relative_reloc 0x7000 0x400000 [hdrLoadW] relaGood rfl rfl
  exact h.1 0x1010 rfl (by decide)

/-- C5: each relocation entry processed by the loop is checked: a non-zero
symbol-table index panics with the static assertion message, and a relocation
type other than 8 panics with the static unsupported-type message. -/
theorem claim_c5_entry_checks (ko vao : Nat) (hdrs : List ProgramHeader) (r : Rela) :
    (r.symIdx ≠ 0 →
        processRela ko vao hdrs r =
          .error (.panicked "relocations using the symbol table are not supported")) ∧
    (r.symIdx = 0 → r.relType ≠ 8 →
        processRela ko vao hdrs r = .error (.panicked "relocation type not supported")) := by
  constructor
  · intro h
    simp [processRela, h]
  · intro h0 h8
    simp [processRela, h0, h8]

/-- Witness for C5: a symbol index of 3 and a relocation type of 7 are both
rejected. -/
theorem claim_c5_entry_checks_witness :
    processRela 0 0 [] relaSymBad =
      .error (.panicked "relocations using the symbol table are not supported") ∧
    processRela 0 0 [] relaTyBad =
      .error (.panicked "relocation type not supported") :=
  ⟨(claim_c5_entry_checks 0 0 [] relaSymBad).1 (by decide),
   (claim_c5_entry_checks 0 0 [] relaTyBad).2 rfl (by decide)⟩

/-- C6 (counterexample): a dynamic segment with a `DT_RELASZ` entry but no
`DT_RELA` does not return successfully — the source asserts that `rela_size`
is `None` and panics. -/
theorem claim_c6_counterexample :
    handle_dynamic_segment 0 0 emptyElf [DynEntry.relaSize 8] =
      ⟨[], some (.panicked "assertion failed: rela_size is not None")⟩ := rfl

/-- C8: every successfully loaded kernel returns entry point
`elf.header.entry + virtual_address_offset`, with the offset 0 for an
`ET_EXEC` image and `0x400000` for an `ET_DYN` image. -/
theorem claim_c8_entry_offset (elf : ElfFile) (ko : Nat) (s : BootState)
    (e : Nat) (tls : Option TlsTemplate) (s1 : BootState)
    (h : load_kernel elf ko s = .ok (e, tls, s1)) :
    (elf.elfType = ElfType.tExec ∧ e = elf.entry) ∨
    (elf.elfType = ElfType.tDyn ∧ e = elf.entry + 0x400000) := by
  by_cases ha : ko % 4096 ≠ 0
  · have hvao : loaderNew ko elf = .error (.errMsg "Loaded kernel ELF file is not sufficiently aligned") := by
      simp [loaderNew, ha]
    unfold load_kernel at h
    rw [hvao] at h
    simp at h
  · cases hty : elf.elfType
    · have hvao : loaderNew ko elf = .error (.panicked "not implemented") := by
        simp [loaderNew, ha, hty]
      unfold load_kernel at h
      rw [hvao] at h
      simp at h
    · have hvao : loaderNew ko elf = .error (.panicked "not implemented") := by
        simp [loaderNew, ha, hty]
      unfold load_kernel at h
      rw [hvao] at h
      simp at h
    · have hvao : loaderNew ko elf = .ok 0 := by
        simp [loaderNew, ha, hty]
      unfold load_kernel at h
      rw [hvao] at h
      dsimp only at h
      cases hls : load_segments ko 0 elf s with
      | error err => rw [hls] at h; simp at h
      | ok pr =>
        obtain ⟨tl, st⟩ := pr
        rw [hls] at h
        simp only [Except.ok.injEq, Prod.mk.injEq] at h
        obtain ⟨h1, h2, h3⟩ := h
        left
        exact ⟨rfl, by omega⟩
    · have hvao : loaderNew ko elf = .ok 0x400000 := by
        simp [loaderNew, ha, hty]
      unfold load_kernel at h
      rw [hvao] at h
      dsimp only at h
      cases hls : load_segments ko 0x400000 elf s with
      | error err => rw [hls] at h; simp at h
      | ok pr =>
        obtain ⟨tl, st⟩ := pr
        rw [hls] at h
        simp only [Except.ok.injEq, Prod.mk.injEq] at h
        obtain ⟨h1, h2, h3⟩ := h
        right
        exact ⟨rfl, by omega⟩
    · have hvao : loaderNew ko elf = .error (.panicked "not implemented") := by
        simp [loaderNew, ha, hty]
      unfold load_kernel at h
      rw [hvao] at h
      simp at h
    · have hvao : loaderNew ko elf = .error (.panicked "not implemented") := by
        simp [loaderNew, ha, hty]
      unfold load_kernel at h
      rw [hvao] at h
      simp at h

/-- Witness for C8: loading an `ET_EXEC` image with entry `0x100000` returns
entry point `0x100000`. -/
theorem claim_c8_entry_offset_witness :
    elfEntryW.elfType = ElfType.tExec ∧ (0x100000 : Nat) = elfEntryW.entry ∨
    elfEntryW.elfType = ElfType.tDyn ∧ (0x100000 : Nat) = elfEntryW.entry + 0x400000 :=
  claim_c8_entry_offset elfEntryW 0 bootState0 0x100000 none bootState0 rfl

/-- A successful `map_to` prepends exactly the requested entry. -/
theorem mapTo_entries {pt pt' : List (Nat × Nat × Nat)} {page frame flags : Nat}
    (h : mapTo pt page frame flags = some pt') :
    pt' = (page, frame, flags) :: pt := by
  unfold mapTo at h
  cases hl : lookupPage pt page
  · rw [hl] at h
    simp at h
    exact h.symm
  · rw [hl] at h
    simp at h

/-- Every entry present after the frame-mapping loop was present before or
carries the flags the loop mapped with. -/
theorem mapFrameRange_entries :
    ∀ (n sp sf fl : Nat) (pt pt' : List (Nat × Nat × Nat)),
      mapFrameRange sp sf fl n pt = some pt' →
      ∀ x ∈ pt', x ∈ pt ∨ x.2.2 = fl := by
  intro n
  induction n with
  | zero =>
    intro sp sf fl pt pt' h x hx
    unfold mapFrameRange at h
    simp at h
    subst h
    exact Or.inl hx
  | succ n ih =>
    intro sp sf fl pt pt' h x hx
    unfold mapFrameRange at h
    split at h
    · simp at h
    · rename_i pt1 hm
      rcases ih _ _ _ _ _ h x hx with h2 | h2
      · rw [mapTo_entries hm] at h2
        rcases List.mem_cons.mp h2 with h3 | h3
        · subst h3
          exact Or.inr rfl
        · exact Or.inl h3
      · exact Or.inr h2

/-- `unmap` only removes entries. -/
theorem unmapPage_subset :
    ∀ (pt : List (Nat × Nat × Nat)) (page : Nat) (x : Nat × Nat)
      (pt' : List (Nat × Nat × Nat)),
      unmapPage pt page = some (x, pt') → ∀ y ∈ pt', y ∈ pt := by
  intro pt
  induction pt with
  | nil =>
    intro page x pt' h
    simp [unmapPage] at h
  | cons e rest ih =>
    intro page x pt' h y hy
    obtain ⟨q, f, fl⟩ := e
    unfold unmapPage at h
    split at h
    · simp at h
      obtain ⟨-, h2⟩ := h
      subst h2
      exact List.mem_cons_of_mem _ hy
    · split at h
      · simp at h
      · rename_i x1 rest' hr
        simp at h
        obtain ⟨-, h2⟩ := h
        subst h2
        rcases List.mem_cons.mp hy with h3 | h3
        · subst h3
          exact List.mem_cons_self _ _
        · exact List.mem_cons_of_mem _ (ih _ _ _ hr _ h3)

/-- Every entry present after the split-tail block was present before or is
the remapped tail page with the given segment flags. -/
theorem splitTailPage_entries (ko vao : Nat) (seg : ProgramHeader) (fl : Nat)
    (s s1 : BootState) (h : splitTailPage ko vao seg fl s = .ok s1) :
    ∀ x ∈ s1.pageTable, x ∈ s.pageTable ∨ x.2.2 = fl := by
  intro x hx
  unfold splitTailPage at h
  dsimp only at h
  split at h
  · simp at h
  · rename_i nf remaining hf
    split at h
    · simp at h
    · rename_i hu
      split at h
      · simp at h
      · rename_i pt2 hm
        simp only [Except.ok.injEq] at h
        subst h
        rw [mapTo_entries hm] at hx
        rcases List.mem_cons.mp hx with h3 | h3
        · subst h3
          exact Or.inr rfl
        · exact Or.inl (unmapPage_subset _ _ _ _ hu _ h3)

/-- Every entry present after the trailing-page loop was present before or
carries the flags the loop mapped with. -/
theorem mapBssPages_entries :
    ∀ (pages : List Nat) (fl : Nat) (s s1 : BootState),
      mapBssPages fl pages s = .ok s1 →
      ∀ x ∈ s1.pageTable, x ∈ s.pageTable ∨ x.2.2 = fl := by
  intro pages
  induction pages with
  | nil =>
    intro fl s s1 h x hx
    unfold mapBssPages at h
    simp only [Except.ok.injEq] at h
    subst h
    exact Or.inl hx
  | cons p rest ih =>
    intro fl s s1 h x hx
    unfold mapBssPages at h
    split at h
    · simp at h
    · rename_i fr remaining hf
      split at h
      · simp at h
      · rename_i pt1 hm
        rcases ih _ _ _ h x hx with h2 | h2
        · rw [mapTo_entries hm] at h2
          rcases List.mem_cons.mp h2 with h3 | h3
          · subst h3
            exact Or.inr rfl
          · exact Or.inl h3
        · exact Or.inr h2

/-- Every entry present after `handle_bss_section` was present before or
carries the given segment flags. -/
theorem handle_bss_section_entries (ko vao : Nat) (seg : ProgramHeader) (fl : Nat)
    (s s1 : BootState) (h : handle_bss_section ko vao seg fl s = .ok s1) :
    ∀ x ∈ s1.pageTable, x ∈ s.pageTable ∨ x.2.2 = fl := by
  intro x hx
  unfold handle_bss_section at h
  dsimp only at h
  split at h
  · simp at h
  · rename_i sMid hMid
    rcases mapBssPages_entries _ _ _ _ h x hx with h2 | h2
    · by_cases hd : (seg.virtual_addr + vao + seg.file_size) % 4096 ≠ 0
      · rw [if_pos hd] at hMid
        exact splitTailPage_entries _ _ _ _ _ _ hMid x h2
      · rw [if_neg hd] at hMid
        simp only [Except.ok.injEq] at hMid
        subst hMid
        exact Or.inl h2
    · exact Or.inr h2

/-- Bits of a value below `2 ^ 64` above position 63 are clear; together with a
decidable check of the low 64 positions this characterizes the flag bits. -/
theorem testBit_aux (v : Nat) (hv : v < 2 ^ 64)
    (H : ∀ j, j < 64 → j ≠ 0 → j ≠ 1 → j ≠ 63 → Nat.testBit v j = false) :
    ∀ i, i ≠ 0 → i ≠ 1 → i ≠ 63 → Nat.testBit v i = false := by
  intro i h0 h1 h63
  rcases Nat.lt_or_ge i 64 with hi | hi
  · exact H i hi h0 h1 h63
  · exact Nat.testBit_eq_false_of_lt (lt_of_lt_of_le hv (Nat.pow_le_pow_right (by norm_num) hi))

/-- The flag word built by `handle_load_segment` has exactly the claimed bits:
PRESENT (bit 0) always, NO_EXECUTE (bit 63) iff not executable, WRITABLE
(bit 1) iff writable, and nothing else. -/
theorem segmentFlags_testBit (seg : ProgramHeader) :
    Nat.testBit (segmentFlags seg) 0 = true ∧
    Nat.testBit (segmentFlags seg) 63 = !seg.is_execute ∧
    Nat.testBit (segmentFlags seg) 1 = seg.is_write ∧
    (∀ i, i ≠ 0 → i ≠ 1 → i ≠ 63 → Nat.testBit (segmentFlags seg) i = false) := by
  cases hx : seg.is_execute <;> cases hw : seg.is_write
  · have hval : segmentFlags seg = 0x8000000000000001 := by
      simp [segmentFlags, hx, hw]
    rw [hval]
    exact ⟨by decide, by decide, by decide, testBit_aux _ (by decide) (by decide)⟩
  · have hval : segmentFlags seg = 0x8000000000000003 := by
      simp [segmentFlags, hx, hw]
    rw [hval]
    exact ⟨by decide, by decide, by decide, testBit_aux _ (by decide) (by decide)⟩
  · have hval : segmentFlags seg = 1 := by
      simp [segmentFlags, hx, hw]
    rw [hval]
    exact ⟨by decide, by decide, by decide, testBit_aux _ (by decide) (by decide)⟩
  · have hval : segmentFlags seg = 3 := by
      simp [segmentFlags, hx, hw]
    rw [hval]
    exact ⟨by decide, by decide, by decide, testBit_aux _ (by decide) (by decide)⟩

/-- C4: every page mapped for a `PT_LOAD` segment (file-backed and BSS pages
alike) carries the segment flag word, and that word has PRESENT set, has
NO_EXECUTE iff the segment is not executable, has WRITABLE iff it is writable,
and no other bit. -/
theorem claim_c4_flag_correctness (ko vao : Nat) (seg : ProgramHeader)
    (s s1 : BootState) (h : handle_load_segment ko vao seg s = .ok s1) :
    (∀ x ∈ s1.pageTable, x ∈ s.pageTable ∨ x.2.2 = segmentFlags seg) ∧
    Nat.testBit (segmentFlags seg) 0 = true ∧
    Nat.testBit (segmentFlags seg) 63 = !seg.is_execute ∧
    Nat.testBit (segmentFlags seg) 1 = seg.is_write ∧
    (∀ i, i ≠ 0 → i ≠ 1 → i ≠ 63 → Nat.testBit (segmentFlags seg) i = false) := by
  refine ⟨?_, segmentFlags_testBit seg⟩
  intro x hx
  unfold handle_load_segment at h
  dsimp only at h
  split at h
  · simp at h
  · rename_i pt1 hm
    by_cases hbss : seg.mem_size > seg.file_size
    · rw [if_pos hbss] at h
      rcases handle_bss_section_entries _ _ _ _ _ _ h x hx with h2 | h2
      · exact mapFrameRange_entries _ _ _ _ _ _ hm x h2
      · exact Or.inr h2
    · rw [if_neg hbss] at h
      simp only [Except.ok.injEq] at h
      subst h
      exact mapFrameRange_entries _ _ _ _ _ _ hm x hx

/-- Witness for C4: mapping an executable, writable segment produces flag word
with PRESENT and WRITABLE set, NO_EXECUTE clear, and (for example) bit 5
clear. -/
theorem claim_c4_flag_correctness_witness :
    Nat.testBit (segmentFlags segFlagsW) 0 = true ∧
    Nat.testBit (segmentFlags segFlagsW) 63 = false ∧
    Nat.testBit (segmentFlags segFlagsW) 1 = true ∧
    Nat.testBit (segmentFlags segFlagsW) 5 = false := by
  have h := claim_c4_flag_correctness 0x1000 0 segFlagsW bootState0
    { mem := bootState0.mem, pageTable := [(0x100, 1, segmentFlags segFlagsW)],
      frames := bootState0.frames } rfl
  refine ⟨h.2.1, ?_, ?_, h.2.2.2.2 5 (by decide) (by decide) (by decide)⟩
  · rw [h.2.2.1]
    rfl
  · rw [h.2.2.2.1]
    rfl

/-- The copy loop leaves every byte outside its destination range unchanged. -/
theorem copyBytes_outside (mem : Nat → Nat) (src dst : Nat) :
    ∀ (n a : Nat), a < dst ∨ dst + n ≤ a → copyBytes mem src dst n a = mem a := by
  intro n
  induction n with
  | zero =>
    intro a _
    rfl
  | succ n ih =>
    intro a ha
    simp only [copyBytes]
    have hne : a ≠ dst + n := by omega
    rw [if_neg hne]
    exact ih a (by omega)

/-- When source and destination ranges are disjoint, the copy loop transfers
byte `i` of the source range to byte `i` of the destination range. -/
theorem copyBytes_at (mem : Nat → Nat) (src dst : Nat) :
    ∀ (n : Nat), src + n ≤ dst ∨ dst + n ≤ src →
      ∀ i, i < n → copyBytes mem src dst n (dst + i) = mem (src + i) := by
  intro n
  induction n with
  | zero =>
    intro _ i hi
    exact absurd hi (by omega)
  | succ n ih =>
    intro hdisj i hi
    simp only [copyBytes]
    by_cases hin : dst + i = dst + n
    · have hieq : i = n := by omega
      rw [if_pos hin, hieq]
      exact copyBytes_outside mem src dst n (src + n) (by omega)
    · rw [if_neg hin]
      exact ih (by omega) i (by omega)

/-- C3: when `zero_start = virt_start + file_size` is not page-aligned, the
split-tail block pops a fresh frame off the allocator, fills its first
`zero_start mod 4096` bytes with the corresponding bytes of the original tail
frame and the rest with zeros, remaps the tail page to the fresh frame with
the unchanged segment flags, and leaves every byte of the original tail frame
untouched. -/
theorem claim_c3_split_tail (ko vao : Nat) (seg : ProgramHeader) (flags : Nat)
    (s s1 : BootState) (nf : Nat) (remaining : List Nat)
    (_hdbz : (seg.virtual_addr + vao + seg.file_size) % 4096 ≠ 0)
    (_hmem : seg.file_size < seg.mem_size)
    (hframes : s.frames = nf :: remaining)
    (hfresh : nf ≠ (ko + seg.offset + seg.file_size - 1) / 4096)
    (hok : splitTailPage ko vao seg flags s = .ok s1) :
    (∀ i, i < (seg.virtual_addr + vao + seg.file_size) % 4096 →
        s1.mem (nf * 4096 + i) =
          s.mem ((ko + seg.offset + seg.file_size - 1) / 4096 * 4096 + i)) ∧
    (∀ i, (seg.virtual_addr + vao + seg.file_size) % 4096 ≤ i → i < 4096 →
        s1.mem (nf * 4096 + i) = 0) ∧
    (∀ i, i < 4096 →
        s1.mem ((ko + seg.offset + seg.file_size - 1) / 4096 * 4096 + i) =
          s.mem ((ko + seg.offset + seg.file_size - 1) / 4096 * 4096 + i)) ∧
    lookupPage s1.pageTable ((seg.virtual_addr + vao + seg.file_size - 1) / 4096) =
      some (nf, flags) ∧
    s1.frames = remaining := by
  have hd4096 : (seg.virtual_addr + vao + seg.file_size) % 4096 < 4096 :=
    Nat.mod_lt _ (by norm_num)
  unfold splitTailPage at hok
  dsimp only at hok
  rw [hframes] at hok
  dsimp only at hok
  split at hok
  · simp at hok
  · rename_i hu
    split at hok
    · simp at hok
    · rename_i hm
      simp only [Except.ok.injEq] at hok
      subst hok
      dsimp only
      set dbz := (seg.virtual_addr + vao + seg.file_size) % 4096 with hdbzd
      set ob := (ko + seg.offset + seg.file_size - 1) / 4096 with hobd
      refine ⟨?_, ?_, ?_, ?_, rfl⟩
      · intro i hi
        have hdisj : ob * 4096 + dbz ≤ nf * 4096 ∨ nf * 4096 + dbz ≤ ob * 4096 := by
          omega
        have hstep := copyBytes_at (zeroFrame s.mem (nf * 4096)) (ob * 4096) (nf * 4096)
          dbz hdisj i hi
        rw [hstep]
        simp only [zeroFrame]
        rw [if_neg (by omega)]
      · intro i hge hlt
        have hstep := copyBytes_outside (zeroFrame s.mem (nf * 4096)) (ob * 4096) (nf * 4096)
          dbz (nf * 4096 + i) (by omega)
        rw [hstep]
        simp only [zeroFrame]
        rw [if_pos (by omega)]
      · intro i hi
        have hstep := copyBytes_outside (zeroFrame s.mem (nf * 4096)) (ob * 4096) (nf * 4096)
          dbz (ob * 4096 + i) (by omega)
        rw [hstep]
        simp only [zeroFrame]
        rw [if_neg (by omega)]
      · rw [mapTo_entries hm]
        simp [lookupPage]

/-- Witness for C3: splitting the tail page of `segSplit` (16 data bytes on
the tail page) remaps page `0x201` to the fresh frame 9, consumes it from the
allocator, copies byte 0 of the original tail frame 2, and zeroes byte 16. -/
theorem claim_c3_split_tail_witness :
    lookupPage (okOr (splitTailPage 0x1000 0 segSplit 3 stateSplit) stateSplit).pageTable
        0x201 = some (9, 3) ∧
    (okOr (splitTailPage 0x1000 0 segSplit 3 stateSplit) stateSplit).frames = [7] ∧
    (okOr (splitTailPage 0x1000 0 segSplit 3 stateSplit) stateSplit).mem (9 * 4096 + 0) =
      stateSplit.mem (2 * 4096 + 0) ∧
    (okOr (splitTailPage 0x1000 0 segSplit 3 stateSplit) stateSplit).mem (9 * 4096 + 16) =
      0 := by
  have h := claim_c3_split_tail 0x1000 0 segSplit 3 stateSplit
    (okOr (splitTailPage 0x1000 0 segSplit 3 stateSplit) stateSplit) 9 [7]
    (by decide) (by decide) rfl (by decide) rfl
  exact ⟨h.2.2.2.1, h.2.2.2.2, h.1 0 (by decide), h.2.1 16 (by decide) (by decide)⟩

/-- Prepending a `DT_RELA` entry increments the `DT_RELA` count. -/
theorem countRela_cons_rela (p : Nat) (rest : List DynEntry) :
    countRela (DynEntry.rela p :: rest) = countRela rest + 1 := by
  simp [countRela]

/-- Prepending a `DT_RELASZ` entry increments the `DT_RELASZ` count. -/
theorem countRelaSize_cons_relaSize (v : Nat) (rest : List DynEntry) :
    countRelaSize (DynEntry.relaSize v :: rest) = countRelaSize rest + 1 := by
  simp [countRelaSize]

/-- Prepending a `DT_RELAENT` entry increments the `DT_RELAENT` count. -/
theorem countRelaEnt_cons_relaEnt (v : Nat) (rest : List DynEntry) :
    countRelaEnt (DynEntry.relaEnt v :: rest) = countRelaEnt rest + 1 := by
  simp [countRelaEnt]

/-- If some collected tag occurs at least twice (counting an already-recorded
value as one occurrence), the tag-collection loop aborts with an error. -/
theorem collectRela_dup :
    ∀ (entries : List DynEntry) (r s e : Option Nat),
      2 ≤ countRela entries + (if r.isSome then 1 else 0) ∨
      2 ≤ countRelaSize entries + (if s.isSome then 1 else 0) ∨
      2 ≤ countRelaEnt entries + (if e.isSome then 1 else 0) →
      ∃ msg, collectRela entries r s e = .error msg := by
  intro entries
  induction entries with
  | nil =>
    intro r s e h
    exfalso
    rcases h with h | h | h
    · cases r <;> simp [countRela] at h
    · cases s <;> simp [countRelaSize] at h
    · cases e <;> simp [countRelaEnt] at h
  | cons d rest ih =>
    intro r s e h
    cases d with
    | rela p =>
      cases r with
      | some rv =>
        exact ⟨.errMsg "Dynamic section contains more than one Rela entry", rfl⟩
      | none =>
        obtain ⟨msg, hmsg⟩ := ih (some p) s e (by
          rcases h with h | h | h
          · left
            rw [countRela_cons_rela] at h
            simp only [Option.isSome_none, Option.isSome_some, Bool.false_eq_true, if_false,
              ite_false, ite_true, if_true] at h ⊢
            omega
          · right; left
            simpa [countRelaSize] using h
          · right; right
            simpa [countRelaEnt] using h)
        exact ⟨msg, hmsg⟩
    | relaSize v =>
      cases s with
      | some sv =>
        exact ⟨.errMsg "Dynamic section contains more than one RelaSize entry", rfl⟩
      | none =>
        obtain ⟨msg, hmsg⟩ := ih r (some v) e (by
          rcases h with h | h | h
          · left
            simpa [countRela] using h
          · right; left
            rw [countRelaSize_cons_relaSize] at h
            simp only [Option.isSome_none, Option.isSome_some, Bool.false_eq_true, if_false,
              ite_false, ite_true, if_true] at h ⊢
            omega
          · right; right
            simpa [countRelaEnt] using h)
        exact ⟨msg, hmsg⟩
    | relaEnt v =>
      cases e with
      | some ev =>
        exact ⟨.errMsg "Dynamic section contains more than one RelaEnt entry", rfl⟩
      | none =>
        obtain ⟨msg, hmsg⟩ := ih r s (some v) (by
          rcases h with h | h | h
          · left
            simpa [countRela] using h
          · right; left
            simpa [countRelaSize] using h
          · right; right
            rw [countRelaEnt_cons_relaEnt] at h
            simp only [Option.isSome_none, Option.isSome_some, Bool.false_eq_true, if_false,
              ite_false, ite_true, if_true] at h ⊢
            omega)
        exact ⟨msg, hmsg⟩
    | other =>
      obtain ⟨msg, hmsg⟩ := ih r s e (by
        rcases h with h | h | h
        · left
          simpa [countRela] using h
        · right; left
          simpa [countRelaSize] using h
        · right; right
          simpa [countRelaEnt] using h)
      exact ⟨msg, hmsg⟩

/-- Characterization of a successful collection pass: an absent tag leaves its
slot unchanged, a present tag makes the slot occupied. -/
theorem collectRela_ok :
    ∀ (entries : List DynEntry) (r s e r' s' e' : Option Nat),
      collectRela entries r s e = .ok (r', s', e') →
      (countRela entries = 0 → r' = r) ∧ (1 ≤ countRela entries → r'.isSome = true) ∧
      (countRelaSize entries = 0 → s' = s) ∧ (1 ≤ countRelaSize entries → s'.isSome = true) ∧
      (countRelaEnt entries = 0 → e' = e) ∧ (1 ≤ countRelaEnt entries → e'.isSome = true) := by
  intro entries
  induction entries with
  | nil =>
    intro r s e r' s' e' h
    simp only [collectRela, Except.ok.injEq, Prod.mk.injEq] at h
    obtain ⟨h1, h2, h3⟩ := h
    subst h1
    subst h2
    subst h3
    exact ⟨fun _ => rfl, fun hc => absurd hc (by simp [countRela]), fun _ => rfl,
      fun hc => absurd hc (by simp [countRelaSize]), fun _ => rfl,
      fun hc => absurd hc (by simp [countRelaEnt])⟩
  | cons d rest ih =>
    intro r s e r' s' e' h
    cases d with
    | rela p =>
      cases r with
      | some rv => simp [collectRela] at h
      | none =>
        have h' : collectRela rest (some p) s e = .ok (r', s', e') := h
        have ihh := ih (some p) s e r' s' e' h'
        refine ⟨?_, ?_, ?_, ?_, ?_, ?_⟩
        · intro hc
          exact absurd hc (by simp [countRela])
        · intro hc
          rcases Nat.eq_zero_or_pos (countRela rest) with h0 | h1
          · rw [ihh.1 h0]
            rfl
          · exact ihh.2.1 h1
        · intro hc
          exact ihh.2.2.1 (by simpa [countRelaSize] using hc)
        · intro hc
          exact ihh.2.2.2.1 (by simpa [countRelaSize] using hc)
        · intro hc
          exact ihh.2.2.2.2.1 (by simpa [countRelaEnt] using hc)
        · intro hc
          exact ihh.2.2.2.2.2 (by simpa [countRelaEnt] using hc)
    | relaSize v =>
      cases s with
      | some sv => simp [collectRela] at h
      | none =>
        have h' : collectRela rest r (some v) e = .ok (r', s', e') := h
        have ihh := ih r (some v) e r' s' e' h'
        refine ⟨?_, ?_, ?_, ?_, ?_, ?_⟩
        · intro hc
          exact ihh.1 (by simpa [countRela] using hc)
        · intro hc
          exact ihh.2.1 (by simpa [countRela] using hc)
        · intro hc
          exact absurd hc (by simp [countRelaSize])
        · intro hc
          rcases Nat.eq_zero_or_pos (countRelaSize rest) with h0 | h1
          · rw [ihh.2.2.1 h0]
            rfl
          · exact ihh.2.2.2.1 h1
        · intro hc
          exact ihh.2.2.2.2.1 (by simpa [countRelaEnt] using hc)
        · intro hc
          exact ihh.2.2.2.2.2 (by simpa [countRelaEnt] using hc)
    | relaEnt v =>
      cases e with
      | some ev => simp [collectRela] at h
      | none =>
        have h' : collectRela rest r s (some v) = .ok (r', s', e') := h
        have ihh := ih r s (some v) r' s' e' h'
        refine ⟨?_, ?_, ?_, ?_, ?_, ?_⟩
        · intro hc
          exact ihh.1 (by simpa [countRela] using hc)
        · intro hc
          exact ihh.2.1 (by simpa [countRela] using hc)
        · intro hc
          exact ihh.2.2.1 (by simpa [countRelaSize] using hc)
        · intro hc
          exact ihh.2.2.2.1 (by simpa [countRelaSize] using hc)
        · intro hc
          exact absurd hc (by simp [countRelaEnt])
        · intro hc
          rcases Nat.eq_zero_or_pos (countRelaEnt rest) with h0 | h1
          · rw [ihh.2.2.2.2.1 h0]
            rfl
          · exact ihh.2.2.2.2.2 h1
    | other =>
      have h' : collectRela rest r s e = .ok (r', s', e') := h
      have ihh := ih r s e r' s' e' h'
      refine ⟨?_, ?_, ?_, ?_, ?_, ?_⟩
      · intro hc
        exact ihh.1 (by simpa [countRela] using hc)
      · intro hc
        exact ihh.2.1 (by simpa [countRela] using hc)
      · intro hc
        exact ihh.2.2.1 (by simpa [countRelaSize] using hc)
      · intro hc
        exact ihh.2.2.2.1 (by simpa [countRelaSize] using hc)
      · intro hc
        exact ihh.2.2.2.2.1 (by simpa [countRelaEnt] using hc)
      · intro hc
        exact ihh.2.2.2.2.2 (by simpa [countRelaEnt] using hc)

/-- A dynamic segment with none of the three tags collects to the initial
state without error. -/
theorem collectRela_clean :
    ∀ (entries : List DynEntry) (r s e : Option Nat),
      countRela entries = 0 → countRelaSize entries = 0 → countRelaEnt entries = 0 →
      collectRela entries r s e = .ok (r, s, e) := by
  intro entries
  induction entries with
  | nil =>
    intro r s e _ _ _
    rfl
  | cons d rest ih =>
    intro r s e h1 h2 h3
    cases d with
    | rela p => simp [countRela] at h1
    | relaSize v => simp [countRelaSize] at h2
    | relaEnt v => simp [countRelaEnt] at h3
    | other =>
      exact ih r s e (by simpa [countRela] using h1) (by simpa [countRelaSize] using h2)
        (by simpa [countRelaEnt] using h3)

/-- C6 (amended): a second `DT_RELA`/`DT_RELASZ`/`DT_RELAENT` of the same tag
is a hard error; `DT_RELA` present with `DT_RELASZ` or `DT_RELAENT` absent is a
hard error; `DT_RELA` absent with `DT_RELASZ` or `DT_RELAENT` present is a hard
error (the assertion panic of the source); only when all three tags are absent
is the segment accepted as relocation-free and handling returns successfully. -/
theorem claim_c6_dynamic_tags (ko vao : Nat) (elf : ElfFile) (entries : List DynEntry) :
    (2 ≤ countRela entries ∨ 2 ≤ countRelaSize entries ∨ 2 ≤ countRelaEnt entries →
      ∃ msg, (handle_dynamic_segment ko vao elf entries).error = some msg) ∧
    (1 ≤ countRela entries → countRelaSize entries = 0 ∨ countRelaEnt entries = 0 →
      ∃ msg, (handle_dynamic_segment ko vao elf entries).error = some msg) ∧
    (countRela entries = 0 → 1 ≤ countRelaSize entries ∨ 1 ≤ countRelaEnt entries →
      ∃ msg, (handle_dynamic_segment ko vao elf entries).error = some msg) ∧
    (countRela entries = 0 → countRelaSize entries = 0 → countRelaEnt entries = 0 →
      handle_dynamic_segment ko vao elf entries = ⟨[], none⟩) := by
  refine ⟨?_, ?_, ?_, ?_⟩
  · intro h
    obtain ⟨msg, hmsg⟩ := collectRela_dup entries none none none (by
      simp only [Option.isSome_none, Bool.false_eq_true, if_false, ite_false]
      rcases h with h | h | h
      · left
        omega
      · right; left
        omega
      · right; right
        omega)
    exact ⟨msg, by simp [handle_dynamic_segment, hmsg]⟩
  · intro h1 h2
    cases hc : collectRela entries none none none with
    | error msg => exact ⟨msg, by simp [handle_dynamic_segment, hc]⟩
    | ok triple =>
      obtain ⟨r', s', e'⟩ := triple
      have hok := collectRela_ok entries none none none r' s' e' hc
      cases r' with
      | none => exact absurd (hok.2.1 h1) (by simp)
      | some off =>
        rcases h2 with h2 | h2
        · have hs : s' = none := hok.2.2.1 h2
          subst hs
          exact ⟨.errMsg "RelaSize entry is missing", by simp [handle_dynamic_segment, hc]⟩
        · have he : e' = none := hok.2.2.2.2.1 h2
          subst he
          cases s' with
          | none =>
            exact ⟨.errMsg "RelaSize entry is missing", by simp [handle_dynamic_segment, hc]⟩
          | some ts =>
            exact ⟨.errMsg "RelaEnt entry is missing", by simp [handle_dynamic_segment, hc]⟩
  · intro h0 hpr
    cases hc : collectRela entries none none none with
    | error msg => exact ⟨msg, by simp [handle_dynamic_segment, hc]⟩
    | ok triple =>
      obtain ⟨r', s', e'⟩ := triple
      have hok := collectRela_ok entries none none none r' s' e' hc
      have hr : r' = none := hok.1 h0
      subst hr
      rcases hpr with hpr | hpr
      · have hs := hok.2.2.2.1 hpr
        cases s' with
        | none => simp at hs
        | some sv =>
          exact ⟨.panicked "assertion failed: rela_size is not None",
            by simp [handle_dynamic_segment, hc]⟩
      · have he := hok.2.2.2.2.2 hpr
        cases e' with
        | none => simp at he
        | some ev =>
          cases s' with
          | none =>
            exact ⟨.panicked "assertion failed: rela_ent is not None",
              by simp [handle_dynamic_segment, hc]⟩
          | some sv =>
            exact ⟨.panicked "assertion failed: rela_size is not None",
              by simp [handle_dynamic_segment, hc]⟩
  · intro h1 h2 h3
    have hc := collectRela_clean entries none none none h1 h2 h3
    simp [handle_dynamic_segment, hc]

/-- Witness for C6 (amended): a dynamic segment with no collected tag at all
is accepted as relocation-free. -/
theorem claim_c6_dynamic_tags_witness :
    handle_dynamic_segment 0 0 emptyElf [DynEntry.other] = ⟨[], none⟩ :=
  (claim_c6_dynamic_tags 0 0 emptyElf [DynEntry.other]).2.2.2 (by decide) (by decide)
    (by decide)

/-- A header list without `PT_DYNAMIC` segments leaves physical memory
untouched in the relocation pass. -/
theorem dynamicLoop_no_dyn (ko vao : Nat) (elf : ElfFile) :
    ∀ (hdrs : List ProgramHeader) (mem : Nat → Nat),
      (∀ h ∈ hdrs, h.segType ≠ SegType.dynamic) →
      dynamicLoop ko vao elf hdrs mem = .ok mem := by
  intro hdrs
  induction hdrs with
  | nil =>
    intro mem _
    rfl
  | cons hd rest ih =>
    intro mem hall
    cases hseg : hd.segType
    case dynamic => exact absurd hseg (hall hd (List.mem_cons_self _ _))
    all_goals
      simp only [dynamicLoop, hseg]
      exact ih mem (fun g hg => hall g (List.mem_cons_of_mem _ hg))

/-- Characterization of a successful pass of the segment-loading loop: the
returned template is the one of the first `PT_TLS` header (or the incoming one
when there is none), and reaching the end with a recorded template forces the
header list to be `PT_TLS`-free. -/
theorem loadLoop_ok_char (ko vao : Nat) :
    ∀ (hdrs : List ProgramHeader) (tls0 : Option TlsTemplate) (s : BootState)
      (r : Option TlsTemplate × BootState),
      loadLoop ko vao hdrs tls0 s = .ok r →
      (r.1 = match tlsHeaders hdrs with
        | [] => tls0
        | t :: _ => some (handle_tls_segment vao t)) ∧
      (tlsHeaders hdrs ≠ [] → tls0 = none) := by
  intro hdrs
  induction hdrs with
  | nil =>
    intro tls0 s r h
    simp only [loadLoop, Except.ok.injEq] at h
    subst h
    exact ⟨by simp [tlsHeaders], fun hne => absurd (by simp [tlsHeaders]) hne⟩
  | cons hd rest ih =>
    intro tls0 s r hk
    cases hseg : hd.segType
    case load =>
      simp only [loadLoop, hseg] at hk
      split at hk
      · simp at hk
      · rename_i s1 hls
        have hrec := ih tls0 s1 r hk
        have hfil : tlsHeaders (hd :: rest) = tlsHeaders rest := by
          simp [tlsHeaders, List.filter_cons, isTlsHeader, hseg]
        rw [hfil]
        exact hrec
    case tls =>
      cases tls0 with
      | some t0 => simp [loadLoop, hseg] at hk
      | none =>
        simp only [loadLoop, hseg] at hk
        have hrec := ih (some (handle_tls_segment vao hd)) s r hk
        have hfil : tlsHeaders (hd :: rest) = hd :: tlsHeaders rest := by
          simp [tlsHeaders, List.filter_cons, isTlsHeader, hseg]
        constructor
        · rw [hfil]
          cases hrest : tlsHeaders rest with
          | nil =>
            rw [hrest] at hrec
            exact hrec.1
          | cons t ts =>
            exact absurd (hrec.2 (by simp [hrest])) (by simp)
        · intro _
          rfl
    all_goals (
      simp only [loadLoop, hseg] at hk
      have hrec := ih tls0 s r hk
      have hfil : tlsHeaders (hd :: rest) = tlsHeaders rest := by
        simp [tlsHeaders, List.filter_cons, isTlsHeader, hseg]
      rw [hfil]
      exact hrec)

/-- When the headers contain two or more `PT_TLS` segments (counting a
recorded template as one), the segment-loading loop aborts with an error. -/
theorem loadLoop_multi (ko vao : Nat) :
    ∀ (hdrs : List ProgramHeader) (tls0 : Option TlsTemplate) (s : BootState),
      2 ≤ (tlsHeaders hdrs).length + (if tls0.isSome then 1 else 0) →
      ∃ msg, loadLoop ko vao hdrs tls0 s = .error msg := by
  intro hdrs
  induction hdrs with
  | nil =>
    intro tls0 s h
    exfalso
    cases tls0 <;> simp [tlsHeaders] at h
  | cons hd rest ih =>
    intro tls0 s h
    cases hseg : hd.segType
    case tls =>
      cases tls0 with
      | some t0 =>
        exact ⟨.errMsg "multiple TLS segments not supported", by simp [loadLoop, hseg]⟩
      | none =>
        have hfil : tlsHeaders (hd :: rest) = hd :: tlsHeaders rest := by
          simp [tlsHeaders, List.filter_cons, isTlsHeader, hseg]
        obtain ⟨msg, hmsg⟩ := ih (some (handle_tls_segment vao hd)) s (by
          rw [hfil] at h
          simp only [List.length_cons, Option.isSome_none, Option.isSome_some,
            Bool.false_eq_true, if_false, ite_false, ite_true, if_true] at h ⊢
          omega)
        exact ⟨msg, by simp [loadLoop, hseg, hmsg]⟩
    case load =>
      have hfil : tlsHeaders (hd :: rest) = tlsHeaders rest := by
        simp [tlsHeaders, List.filter_cons, isTlsHeader, hseg]
      cases hls : handle_load_segment ko vao hd s with
      | error msg => exact ⟨msg, by simp [loadLoop, hseg, hls]⟩
      | ok s1 =>
        obtain ⟨msg, hmsg⟩ := ih tls0 s1 (by rw [hfil] at h; exact h)
        exact ⟨msg, by simp [loadLoop, hseg, hls, hmsg]⟩
    all_goals (
      have hfil : tlsHeaders (hd :: rest) = tlsHeaders rest := by
        simp [tlsHeaders, List.filter_cons, isTlsHeader, hseg]
      obtain ⟨msg, hmsg⟩ := ih tls0 s (by rw [hfil] at h; exact h)
      exact ⟨msg, by simp [loadLoop, hseg, hmsg]⟩)

/-- C7: with exactly one `PT_TLS` header, a successful `load_segments` pass
returns its template `{start_addr = virtual_addr + virtual_address_offset,
file_size, mem_size}`; with two or more `PT_TLS` headers (here in a header
list of TLS segments only, so that nothing fails earlier) it returns exactly
the "multiple TLS segments not supported" error, and with two or more `PT_TLS`
headers in any list it aborts with some error. -/
theorem claim_c7_tls_handling :
    (∀ (ko vao : Nat) (elf : ElfFile) (s : BootState) (r : Option TlsTemplate × BootState)
        (t : ProgramHeader),
        tlsHeaders elf.progHeaders = [t] →
        load_segments ko vao elf s = .ok r →
        r.1 = some { start_addr := t.virtual_addr + vao, file_size := t.file_size,
                     mem_size := t.mem_size }) ∧
    (∀ (ko vao : Nat) (elf : ElfFile) (s : BootState),
        (∀ h ∈ elf.progHeaders, h.segType = SegType.tls) →
        2 ≤ elf.progHeaders.length →
        load_segments ko vao elf s = .error (.errMsg "multiple TLS segments not supported")) ∧
    (∀ (ko vao : Nat) (elf : ElfFile) (s : BootState),
        2 ≤ (tlsHeaders elf.progHeaders).length →
        ∃ msg, load_segments ko vao elf s = .error msg) := by
  refine ⟨?_, ?_, ?_⟩
  · intro ko vao elf s r t hfil hok
    unfold load_segments at hok
    split at hok
    · simp at hok
    · rename_i mem1 hdyn
      have hchar := loadLoop_ok_char ko vao elf.progHeaders none _ r hok
      rw [hfil] at hchar
      exact hchar.1
  · intro ko vao elf s hall hlen
    have hdyn : dynamicLoop ko vao elf elf.progHeaders s.mem = .ok s.mem :=
      dynamicLoop_no_dyn ko vao elf elf.progHeaders s.mem (fun g hg => by
        rw [hall g hg]
        simp)
    unfold load_segments
    rw [hdyn]
    cases helf : elf.progHeaders with
    | nil =>
      rw [helf] at hlen
      simp at hlen
    | cons a tail =>
      cases tail with
      | nil =>
        rw [helf] at hlen
        simp at hlen
      | cons b tail2 =>
        have ha : a.segType = SegType.tls := hall a (by rw [helf]; exact List.mem_cons_self _ _)
        have hb : b.segType = SegType.tls := hall b (by
          rw [helf]
          exact List.mem_cons_of_mem _ (List.mem_cons_self _ _))
        simp [loadLoop, ha, hb]
  · intro ko vao elf s hlen
    unfold load_segments
    cases hdyn : dynamicLoop ko vao elf elf.progHeaders s.mem with
    | error msg => exact ⟨msg, by simp [hdyn]⟩
    | ok mem1 =>
      obtain ⟨msg, hmsg⟩ := loadLoop_multi ko vao elf.progHeaders none
        { mem := mem1, pageTable := s.pageTable, frames := s.frames } (by
          simp only [Option.isSome_none, Bool.false_eq_true, if_false, ite_false]
          omega)
      exact ⟨msg, by simp [hdyn, hmsg]⟩

/-- Witness for C7: loading an image whose only program header is the S4
`PT_TLS` header returns its template. -/
theorem claim_c7_tls_handling_witness :
    (okOr (load_segments 0 0 elfTlsW bootState0) (none, bootState0)).1 =
      some { start_addr := 0x10000, file_size := 0x20, mem_size := 0x40 } :=
  claim_c7_tls_handling.1 0 0 elfTlsW bootState0
    (okOr (load_segments 0 0 elfTlsW bootState0) (none, bootState0)) hdrTlsW rfl rfl
